import Mathlib

/-!
Verification of the cognitive-state engine in `src-tauri/src/analysis/engine.rs`
(`CognitiveStateEngine`): a fixed-parameter 3-state HMM forward step driven by a
smoothed "stuck score", with a backspace-streak override, a pause gate and an
insufficient-data skip.

Modelling conventions: `f64` arithmetic is embedded as exact rational (`ℚ`)
arithmetic; the Rust cast `(x as usize)` on a non-negative float is
`Int.toNat ∘ Int.floor` (both truncate toward zero there, and both clamp
negative values to 0); the `Arc<Mutex<...>>` fields become plain fields of a
state record threaded explicitly (the engine is single-writer, and the
poisoning-recovery arms are behaviourally identical to the happy path).
-/

/-- Feature vector consumed by the engine. The struct itself lives in
`analysis/features.rs`, which is not among the sources; the six fields below
are exactly the ones `engine.rs` reads (spec §3, FeatureVector). -/
structure Features where
  f1_flight_time_median : ℚ
  f2_flight_time_variance : ℚ
  f3_correction_rate : ℚ
  f4_burst_length : ℚ
  f5_pause_count : ℚ
  f6_pause_after_del_rate : ℚ

/-- Mutable state of `CognitiveStateEngine` (engine.rs, lines 14-26):
belief vector, pause flag, backspace streak and the EWMA of the stuck score.
The fixed matrices are global constants below, as in `new()`. -/
structure EngineState where
  current_state_probs : Fin 3 → ℚ
  is_paused : Bool
  backspace_streak : ℕ
  s_stuck_ewma : ℚ

/-- Transition matrix A (engine.rs line 51), stored flat exactly as in the
source and indexed as `transitions[i * 3 + j]`, row `i` = from-state. -/
def transitions : List ℚ :=
  [0.92, 0.07, 0.01,
   0.10, 0.82, 0.08,
   0.05, 0.15, 0.80]

/-- Indexing of the flat transition array: `self.transitions[i * n_states + j]`
(engine.rs line 238). -/
def transitionsAt (i j : Fin 3) : ℚ := transitions.getD (i * 3 + j) 0

/-- Emission matrix B, 3×11 (engine.rs lines 64-71), stored flat exactly as in
the source and indexed as `emissions[j * 11 + obs]`. Row 0 = Flow,
row 1 = Incubation, row 2 = Stuck. -/
def emissions : List ℚ :=
  [0.35, 0.25, 0.15, 0.10, 0.07, 0.05, 0.02, 0.01, 0.0, 0.0, 0.0,
   0.02, 0.03, 0.05, 0.08, 0.10, 0.15, 0.20, 0.20, 0.10, 0.06, 0.01,
   0.0, 0.0, 0.01, 0.02, 0.05, 0.10, 0.20, 0.30, 0.20, 0.10, 0.99]

/-- Indexing of the flat emission array: `self.emissions[j * 11 + obs]`
(engine.rs line 242). -/
def emissionsAt (j : Fin 3) (obs : Fin 11) : ℚ := emissions.getD (j * 11 + obs) 0

/-- Initial prior (engine.rs line 76). -/
def initial_probs : Fin 3 → ℚ := ![0.7, 0.2, 0.1]

/-- `CognitiveStateEngine::new` (engine.rs lines 78-85). -/
def CognitiveStateEngine.new : EngineState :=
  { current_state_probs := initial_probs
    is_paused := false
    backspace_streak := 0
    s_stuck_ewma := 0 }

/-- `CognitiveStateEngine::set_paused` (engine.rs lines 88-93). -/
def set_paused (st : EngineState) (paused : Bool) : EngineState :=
  { st with is_paused := paused }

/-- `CognitiveStateEngine::force_flow_state` (engine.rs lines 97-108): snap the
belief to the near-Flow vector and reset the EWMA; nothing else is touched. -/
def force_flow_state (st : EngineState) : EngineState :=
  { st with current_state_probs := ![0.98, 0.01, 0.01], s_stuck_ewma := 0 }

/-- `CognitiveStateEngine::calculate_s_stuck` (engine.rs lines 143-160).
Modelled from the spec: the response function `phi(value, beta)` is defined in
the missing `analysis/features.rs`; per spec §9 its closed form is not
observable (only its usage contract is), so this development takes it as an
explicit parameter `phiFn`. The betas and weights below are the source's. -/
def calculate_s_stuck (phiFn : ℚ → ℚ → ℚ) (features : Features) : ℚ :=
  let phi1 := phiFn features.f1_flight_time_median 250
  let phi2 := phiFn features.f2_flight_time_variance 2000
  let phi3 := phiFn features.f3_correction_rate 0.10
  let phi4_inv := 1 - phiFn features.f4_burst_length 2
  let phi5 := phiFn features.f5_pause_count 3
  let phi6 := phiFn features.f6_pause_after_del_rate 0.15
  0.30 * phi1 + 0.10 * phi2 + 0.15 * phi3 + 0.15 * phi6 + 0.15 * phi4_inv + 0.15 * phi5

/-- Backspace streak transition (engine.rs lines 174-193): `+= 1` on the
backspace key code 0x08, reset to 0 on any other supplied key code, unchanged
when no key code is supplied. -/
def streakNext (streak : ℕ) (vk_code : Option ℕ) : ℕ :=
  if vk_code = some 8 then streak + 1
  else if vk_code.isSome then 0
  else streak

/-- EWMA step (engine.rs line 204): `*ewma = 0.3 * raw_s_stuck + 0.7 * (*ewma)`. -/
def ewmaNext (ewma raw_s_stuck : ℚ) : ℚ := 0.3 * raw_s_stuck + 0.7 * ewma

/-- Observation discretizer (engine.rs lines 215-220):
`obs = ((s_stuck * 10.0) as usize).min(10)`, overridden to 10 when the
streak-based penalty applies (`streak >= 5`). -/
def obsSymbol (s_stuck : ℚ) (streak : ℕ) : Fin 11 :=
  if 5 ≤ streak then ⟨10, by omega⟩
  else ⟨min (Int.toNat ⌊s_stuck * 10⌋) 10, by omega⟩

/-- Inner transition sum of the forward step (engine.rs lines 236-240):
`trans_sum = Σ_i old_probs[i] * transitions[i * 3 + j]`. -/
def transSum (old_probs : Fin 3 → ℚ) (j : Fin 3) : ℚ :=
  ∑ i : Fin 3, old_probs i * transitionsAt i j

/-- Unnormalized posterior component (engine.rs lines 242-243):
`new_probs[j] = trans_sum * emissions[j * 11 + obs]`. -/
def unnormalized (old_probs : Fin 3 → ℚ) (obs : Fin 11) (j : Fin 3) : ℚ :=
  transSum old_probs j * emissionsAt j obs

/-- Normalizer (engine.rs lines 233-244): `sum_prob = Σ_j new_probs[j]`. -/
def sumProb (old_probs : Fin 3 → ℚ) (obs : Fin 11) : ℚ :=
  ∑ j : Fin 3, unnormalized old_probs obs j

/-- Forward-algorithm step including the normalize branch (engine.rs lines
232-255): divide by `sum_prob` when it is positive; the stored vector becomes
`new_probs` either way (`*current = new_probs` is unconditional). -/
def forwardStep (old_probs : Fin 3 → ℚ) (obs : Fin 11) : Fin 3 → ℚ :=
  if 0 < sumProb old_probs obs then
    fun j => unnormalized old_probs obs j / sumProb old_probs obs
  else
    fun j => unnormalized old_probs obs j

/-- Observation symbol consumed by one `update` call: EWMA-smoothed score and
post-transition streak feed the discretizer (engine.rs lines 195-220). -/
def updateObs (phiFn : ℚ → ℚ → ℚ) (st : EngineState) (features : Features)
    (vk_code : Option ℕ) : Fin 11 :=
  obsSymbol (ewmaNext st.s_stuck_ewma (calculate_s_stuck phiFn features))
    (streakNext st.backspace_streak vk_code)

/-- `CognitiveStateEngine::update` (engine.rs lines 163-256): pause gate, then
insufficient-data skip (`f1 <= 0`), then streak update, EWMA update,
discretization with streak override, and the forward step. -/
def update (phiFn : ℚ → ℚ → ℚ) (st : EngineState) (features : Features)
    (vk_code : Option ℕ) : EngineState :=
  if st.is_paused then st
  else if features.f1_flight_time_median ≤ 0 then st
  else
    { st with
      current_state_probs :=
        forwardStep st.current_state_probs (updateObs phiFn st features vk_code)
      backspace_streak := streakNext st.backspace_streak vk_code
      s_stuck_ewma := ewmaNext st.s_stuck_ewma (calculate_s_stuck phiFn features) }

/-- One recorded call to `update`. -/
structure UpdateCall where
  phiFn : ℚ → ℚ → ℚ
  features : Features
  vk_code : Option ℕ

/-- Run a sequence of `update` calls in order. -/
def runUpdates (st : EngineState) (calls : List UpdateCall) : EngineState :=
  calls.foldl (fun s c => update c.phiFn s c.features c.vk_code) st

/-- Well-formed belief vector: componentwise non-negative and summing to 1. -/
def GoodProbs (p : Fin 3 → ℚ) : Prop :=
  (∀ i, 0 ≤ p i) ∧ ∑ i : Fin 3, p i = 1

/-- Response function instance used for concrete test inputs (the constant-0
response; any `ℚ → ℚ → ℚ` works for the parameterized engine). -/
def zeroPhi : ℚ → ℚ → ℚ := fun _ _ => 0

/-- Concrete feature vector with a valid flight-time median. -/
def testFeatures : Features :=
  { f1_flight_time_median := 100
    f2_flight_time_variance := 0
    f3_correction_rate := 0
    f4_burst_length := 0
    f5_pause_count := 0
    f6_pause_after_del_rate := 0 }

/-- Concrete update call with no key code. -/
def testCall : UpdateCall :=
  { phiFn := zeroPhi, features := testFeatures, vk_code := none }

/-- Concrete update call carrying the backspace key code 0x08. -/
def backspaceCall : UpdateCall :=
  { phiFn := zeroPhi, features := testFeatures, vk_code := some 8 }

/-- Concrete feature vector with a non-positive flight-time median ("no data
this tick"). -/
def zeroFeatures : Features :=
  { f1_flight_time_median := 0
    f2_flight_time_variance := 0
    f3_correction_rate := 0
    f4_burst_length := 0
    f5_pause_count := 0
    f6_pause_after_del_rate := 0 }

/-- Four consecutive backspace update calls. -/
def fourBackspaces : List UpdateCall :=
  [backspaceCall, backspaceCall, backspaceCall, backspaceCall]

/-- Prior with a negative component on which the unnormalized posterior for
observation symbol 0 sums to exactly zero: the column-0 emission weights give
`0.35·(0.92 p₀ + 0.10 p₁) + 0.02·(0.07 p₀ + 0.82 p₁) = 0.3234 p₀ + 0.0514 p₁`,
which vanishes at `p = (0.0514, -0.3234, 0)`. -/
def degeneratePrior : Fin 3 → ℚ := ![0.0514, -0.3234, 0]

/-- Engine state holding `degeneratePrior`, not paused, streak 0, EWMA 0. -/
def degenerateState : EngineState :=
  { current_state_probs := degeneratePrior
    is_paused := false
    backspace_streak := 0
    s_stuck_ewma := 0 }

/-- Paused engine state used as a concrete input. -/
def pausedState : EngineState :=
  { current_state_probs := initial_probs
    is_paused := true
    backspace_streak := 0
    s_stuck_ewma := 0 }

/-! ### Entry-level facts about the constant matrices -/

lemma fin3_val_zero : ((0 : Fin 3) : ℕ) = 0 := rfl

lemma fin3_val_one : ((1 : Fin 3) : ℕ) = 1 := rfl

lemma fin3_val_two : ((2 : Fin 3) : ℕ) = 2 := rfl

lemma transitionsAt_nonneg (i j : Fin 3) : 0 ≤ transitionsAt i j := by
  fin_cases i <;> fin_cases j <;>
    norm_num [transitionsAt, transitions]

lemma transitionsAt_col1_pos (i : Fin 3) : 0 < transitionsAt i 1 := by
  fin_cases i <;>
    norm_num [transitionsAt, transitions, fin3_val_one]

lemma emissionsAt_nonneg (j : Fin 3) (obs : Fin 11) : 0 ≤ emissionsAt j obs := by
  fin_cases j <;> fin_cases obs <;>
    norm_num [emissionsAt, emissions]

lemma emissionsAt_row1_pos (obs : Fin 11) : 0 < emissionsAt 1 obs := by
  fin_cases obs <;>
    norm_num [emissionsAt, emissions, fin3_val_one]

/-! ### Positivity of the normalizer and preservation of well-formedness -/

lemma transSum_nonneg {p : Fin 3 → ℚ} (hp : ∀ i, 0 ≤ p i) (j : Fin 3) :
    0 ≤ transSum p j :=
  Finset.sum_nonneg fun i _ => mul_nonneg (hp i) (transitionsAt_nonneg i j)

lemma unnormalized_nonneg {p : Fin 3 → ℚ} (hp : ∀ i, 0 ≤ p i) (obs : Fin 11)
    (j : Fin 3) : 0 ≤ unnormalized p obs j :=
  mul_nonneg (transSum_nonneg hp j) (emissionsAt_nonneg j obs)

lemma transSum_col1_pos {p : Fin 3 → ℚ} (hp : ∀ i, 0 ≤ p i)
    (hsum : 0 < ∑ i : Fin 3, p i) : 0 < transSum p 1 := by
  obtain ⟨i0, hi0⟩ : ∃ i, 0 < p i := by
    by_contra hc
    push_neg at hc
    have hle : ∑ i : Fin 3, p i ≤ 0 :=
      Finset.sum_nonpos fun i _ => hc i
    linarith
  calc (0 : ℚ) < p i0 * transitionsAt i0 1 :=
        mul_pos hi0 (transitionsAt_col1_pos i0)
    _ ≤ transSum p 1 :=
        Finset.single_le_sum
          (fun i _ => mul_nonneg (hp i) (transitionsAt_nonneg i 1))
          (Finset.mem_univ i0)

lemma sumProb_pos_of_nonneg {p : Fin 3 → ℚ} (hp : ∀ i, 0 ≤ p i)
    (hsum : 0 < ∑ i : Fin 3, p i) (obs : Fin 11) : 0 < sumProb p obs :=
  calc (0 : ℚ) < unnormalized p obs 1 :=
        mul_pos (transSum_col1_pos hp hsum) (emissionsAt_row1_pos obs)
    _ ≤ sumProb p obs :=
        Finset.single_le_sum
          (fun j _ => unnormalized_nonneg hp obs j)
          (Finset.mem_univ 1)

lemma forwardStep_GoodProbs {p : Fin 3 → ℚ} (hp : GoodProbs p) (obs : Fin 11) :
    GoodProbs (forwardStep p obs) := by
  have hpos : 0 < sumProb p obs :=
    sumProb_pos_of_nonneg hp.1 (by rw [hp.2]; norm_num) obs
  constructor
  · intro j
    simp only [forwardStep, if_pos hpos]
    exact div_nonneg (unnormalized_nonneg hp.1 obs j) (le_of_lt hpos)
  · simp only [forwardStep, if_pos hpos]
    rw [← Finset.sum_div]
    exact div_self (ne_of_gt hpos)

lemma update_GoodProbs {st : EngineState} (h : GoodProbs st.current_state_probs)
    (phiFn : ℚ → ℚ → ℚ) (f : Features) (vk : Option ℕ) :
    GoodProbs ((update phiFn st f vk).current_state_probs) := by
  unfold update
  split_ifs
  · exact h
  · exact h
  · exact forwardStep_GoodProbs h _

lemma initial_GoodProbs : GoodProbs initial_probs := by
  constructor
  · intro i
    fin_cases i <;> norm_num [initial_probs]
  · norm_num [Fin.sum_univ_three, initial_probs]

lemma runUpdates_GoodProbs {st : EngineState} (h : GoodProbs st.current_state_probs)
    (calls : List UpdateCall) : GoodProbs ((runUpdates st calls).current_state_probs) := by
  induction calls generalizing st with
  | nil => exact h
  | cons c cs ih => exact ih (update_GoodProbs h c.phiFn c.features c.vk_code)

/-! ### Projections of `update` -/

lemma update_is_paused (phiFn : ℚ → ℚ → ℚ) (st : EngineState) (f : Features)
    (vk : Option ℕ) : (update phiFn st f vk).is_paused = st.is_paused := by
  unfold update
  split_ifs <;> rfl

lemma update_probs_not_skipped {st : EngineState} (hp : st.is_paused = false)
    {f : Features} (hft : 0 < f.f1_flight_time_median) (phiFn : ℚ → ℚ → ℚ)
    (vk : Option ℕ) :
    (update phiFn st f vk).current_state_probs =
      forwardStep st.current_state_probs (updateObs phiFn st f vk) := by
  unfold update
  rw [if_neg (by simp [hp]), if_neg (not_le.mpr hft)]

lemma update_streak_not_skipped {st : EngineState} (hp : st.is_paused = false)
    {f : Features} (hft : 0 < f.f1_flight_time_median) (phiFn : ℚ → ℚ → ℚ)
    (vk : Option ℕ) :
    (update phiFn st f vk).backspace_streak = streakNext st.backspace_streak vk := by
  unfold update
  rw [if_neg (by simp [hp]), if_neg (not_le.mpr hft)]

lemma update_ewma_not_skipped {st : EngineState} (hp : st.is_paused = false)
    {f : Features} (hft : 0 < f.f1_flight_time_median) (phiFn : ℚ → ℚ → ℚ)
    (vk : Option ℕ) :
    (update phiFn st f vk).s_stuck_ewma =
      ewmaNext st.s_stuck_ewma (calculate_s_stuck phiFn f) := by
  unfold update
  rw [if_neg (by simp [hp]), if_neg (not_le.mpr hft)]

/-! ### Run-level invariants -/

lemma update_ewma_lt_one {st : EngineState} (h : st.s_stuck_ewma < 1)
    {c : UpdateCall} (hc : calculate_s_stuck c.phiFn c.features < 1) :
    (update c.phiFn st c.features c.vk_code).s_stuck_ewma < 1 := by
  unfold update
  split_ifs
  · exact h
  · exact h
  · show ewmaNext st.s_stuck_ewma (calculate_s_stuck c.phiFn c.features) < 1
    unfold ewmaNext
    linarith

lemma runUpdates_ewma_lt_one {st : EngineState} (h : st.s_stuck_ewma < 1)
    {calls : List UpdateCall}
    (hc : ∀ c ∈ calls, calculate_s_stuck c.phiFn c.features < 1) :
    (runUpdates st calls).s_stuck_ewma < 1 := by
  induction calls generalizing st with
  | nil => exact h
  | cons c cs ih =>
    exact ih (update_ewma_lt_one h (hc c (by simp)))
      (fun cc hcc => hc cc (by simp [hcc]))

lemma backspace_run {st : EngineState} (hp : st.is_paused = false)
    {calls : List UpdateCall}
    (h : ∀ c ∈ calls, c.vk_code = some 8 ∧ 0 < c.features.f1_flight_time_median) :
    (runUpdates st calls).backspace_streak = st.backspace_streak + calls.length ∧
      (runUpdates st calls).is_paused = false := by
  induction calls generalizing st with
  | nil => exact ⟨rfl, hp⟩
  | cons c cs ih =>
    obtain ⟨hvk, hft⟩ := h c (by simp)
    have hbs : (update c.phiFn st c.features c.vk_code).backspace_streak =
        st.backspace_streak + 1 := by
      rw [update_streak_not_skipped hp hft, hvk]
      simp [streakNext]
    have hip : (update c.phiFn st c.features c.vk_code).is_paused = false := by
      rw [update_is_paused]
      exact hp
    obtain ⟨h1, h2⟩ := ih hip (fun cc hcc => h cc (by simp [hcc]))
    refine ⟨?_, h2⟩
    rw [show runUpdates st (c :: cs) =
        runUpdates (update c.phiFn st c.features c.vk_code) cs from rfl] at *
    rw [h1, hbs]
    simp [List.length_cons]
    omega

/-! ### Claim theorems -/

/-- C4: while the pause flag is set, every call to `update`, for any feature
vector and any key code, leaves the belief vector, the EWMA smoothing scalar
and the backspace streak counter unchanged. -/
theorem C4_pause_is_noop (phiFn : ℚ → ℚ → ℚ) (st : EngineState) (f : Features)
    (vk : Option ℕ) (h : st.is_paused = true) :
    (update phiFn st f vk).current_state_probs = st.current_state_probs ∧
    (update phiFn st f vk).s_stuck_ewma = st.s_stuck_ewma ∧
    (update phiFn st f vk).backspace_streak = st.backspace_streak := by
  unfold update
  rw [if_pos (by simp [h])]
  exact ⟨rfl, rfl, rfl⟩

/-- Witness for C4: at a concrete paused state the belief is untouched. -/
theorem C4_pause_is_noop_witness :
    pausedState.is_paused = true ∧
    (update zeroPhi pausedState testFeatures none).current_state_probs =
      pausedState.current_state_probs :=
  ⟨rfl, (C4_pause_is_noop zeroPhi pausedState testFeatures none rfl).1⟩

/-- C5: every call to `update` whose feature vector has flight-time median ≤ 0
is skipped: belief vector, EWMA scalar and streak counter are unchanged (and,
`update` being total, no error is surfaced). -/
theorem C5_insufficient_data_skip (phiFn : ℚ → ℚ → ℚ) (st : EngineState)
    (f : Features) (vk : Option ℕ) (h : f.f1_flight_time_median ≤ 0) :
    (update phiFn st f vk).current_state_probs = st.current_state_probs ∧
    (update phiFn st f vk).s_stuck_ewma = st.s_stuck_ewma ∧
    (update phiFn st f vk).backspace_streak = st.backspace_streak := by
  unfold update
  split_ifs
  all_goals exact ⟨rfl, rfl, rfl⟩

/-- Witness for C5: a concrete zero-flight-time call changes nothing. -/
theorem C5_insufficient_data_skip_witness :
    zeroFeatures.f1_flight_time_median ≤ 0 ∧
    (update zeroPhi CognitiveStateEngine.new zeroFeatures (some 8)).current_state_probs =
      CognitiveStateEngine.new.current_state_probs :=
  ⟨le_refl 0,
   (C5_insufficient_data_skip zeroPhi CognitiveStateEngine.new zeroFeatures
      (some 8) (le_refl 0)).1⟩

/-- C6: `force_flow_state`, in any engine state, sets the belief vector to
[0.98, 0.01, 0.01] and the EWMA scalar to 0 and leaves the pause flag and the
backspace streak counter unchanged. -/
theorem C6_force_flow_state (st : EngineState) :
    (force_flow_state st).current_state_probs = ![0.98, 0.01, 0.01] ∧
    (force_flow_state st).s_stuck_ewma = 0 ∧
    (force_flow_state st).is_paused = st.is_paused ∧
    (force_flow_state st).backspace_streak = st.backspace_streak :=
  ⟨rfl, rfl, rfl, rfl⟩

/-- C7: the smoother satisfies `ewma_t = 0.3·raw_t + 0.7·ewma_{t-1}` with
`ewma_0 = 0`, and each non-skipped update with a raw score different from the
current EWMA value strictly decreases the distance `|ewma - raw|`. -/
theorem C7_ewma_recurrence_and_contraction (phiFn : ℚ → ℚ → ℚ)
    (st : EngineState) (f : Features) (vk : Option ℕ)
    (hp : st.is_paused = false) (hft : 0 < f.f1_flight_time_median) :
    CognitiveStateEngine.new.s_stuck_ewma = 0 ∧
    (update phiFn st f vk).s_stuck_ewma =
      0.3 * calculate_s_stuck phiFn f + 0.7 * st.s_stuck_ewma ∧
    (st.s_stuck_ewma ≠ calculate_s_stuck phiFn f →
      |(update phiFn st f vk).s_stuck_ewma - calculate_s_stuck phiFn f| <
        |st.s_stuck_ewma - calculate_s_stuck phiFn f|) := by
  refine ⟨rfl, by rw [update_ewma_not_skipped hp hft]; rfl, fun hne => ?_⟩
  rw [update_ewma_not_skipped hp hft]
  unfold ewmaNext
  have h1 : 0.3 * calculate_s_stuck phiFn f + 0.7 * st.s_stuck_ewma -
      calculate_s_stuck phiFn f =
      0.7 * (st.s_stuck_ewma - calculate_s_stuck phiFn f) := by ring
  rw [h1, abs_mul, show |(0.7 : ℚ)| = 0.7 by norm_num]
  have h2 : 0 < |st.s_stuck_ewma - calculate_s_stuck phiFn f| :=
    abs_pos.mpr (sub_ne_zero.mpr hne)
  linarith

/-- Witness for C7 at the fresh engine with the constant-0 response. -/
theorem C7_ewma_witness :
    CognitiveStateEngine.new.is_paused = false ∧
    (0 : ℚ) < testFeatures.f1_flight_time_median ∧
    (update zeroPhi CognitiveStateEngine.new testFeatures none).s_stuck_ewma =
      0.3 * calculate_s_stuck zeroPhi testFeatures +
        0.7 * CognitiveStateEngine.new.s_stuck_ewma :=
  ⟨rfl, by norm_num [testFeatures],
   (C7_ewma_recurrence_and_contraction zeroPhi CognitiveStateEngine.new
      testFeatures none rfl (by norm_num [testFeatures])).2.1⟩

/-- C8: during every non-skipped update, the streak counter increments by 1 on
the backspace code 0x08, resets to 0 on any other supplied key code, and is
unchanged when no key code is supplied. -/
theorem C8_streak_transition (phiFn : ℚ → ℚ → ℚ) (st : EngineState)
    (f : Features) (vk : Option ℕ) (hp : st.is_paused = false)
    (hft : 0 < f.f1_flight_time_median) :
    (vk = some 8 →
      (update phiFn st f vk).backspace_streak = st.backspace_streak + 1) ∧
    (∀ c : ℕ, vk = some c → c ≠ 8 →
      (update phiFn st f vk).backspace_streak = 0) ∧
    (vk = none →
      (update phiFn st f vk).backspace_streak = st.backspace_streak) := by
  refine ⟨fun hvk => ?_, fun c hvk hc => ?_, fun hvk => ?_⟩
  · rw [update_streak_not_skipped hp hft, hvk]
    simp [streakNext]
  · rw [update_streak_not_skipped hp hft, hvk]
    simp [streakNext, hc]
  · rw [update_streak_not_skipped hp hft, hvk]
    simp [streakNext]

/-- Witness for C8: one concrete backspace update increments the streak. -/
theorem C8_streak_witness :
    CognitiveStateEngine.new.is_paused = false ∧
    (0 : ℚ) < testFeatures.f1_flight_time_median ∧
    (update zeroPhi CognitiveStateEngine.new testFeatures
        (some 8)).backspace_streak =
      CognitiveStateEngine.new.backspace_streak + 1 :=
  ⟨rfl, by norm_num [testFeatures],
   (C8_streak_transition zeroPhi CognitiveStateEngine.new testFeatures (some 8)
      rfl (by norm_num [testFeatures])).1 rfl⟩

/-- C2: for every sequence of update calls starting from the initial prior
[0.7, 0.2, 0.1], after each non-skipped update (not paused, flight-time
median > 0) the three belief components sum to 1 within 1e-9 (here: exactly)
and each lies in [0, 1]. -/
theorem C2_normalization_invariant (calls : List UpdateCall) (c : UpdateCall)
    (hp : (runUpdates CognitiveStateEngine.new calls).is_paused = false)
    (hft : 0 < c.features.f1_flight_time_median) :
    |(∑ i : Fin 3, (update c.phiFn (runUpdates CognitiveStateEngine.new calls)
        c.features c.vk_code).current_state_probs i) - 1| ≤ 1 / 1000000000 ∧
    ∀ i : Fin 3,
      0 ≤ (update c.phiFn (runUpdates CognitiveStateEngine.new calls)
        c.features c.vk_code).current_state_probs i ∧
      (update c.phiFn (runUpdates CognitiveStateEngine.new calls)
        c.features c.vk_code).current_state_probs i ≤ 1 := by
  have hg : GoodProbs ((update c.phiFn (runUpdates CognitiveStateEngine.new calls)
      c.features c.vk_code).current_state_probs) :=
    update_GoodProbs (runUpdates_GoodProbs initial_GoodProbs calls)
      c.phiFn c.features c.vk_code
  refine ⟨by rw [hg.2]; norm_num, fun i => ⟨hg.1 i, ?_⟩⟩
  calc (update c.phiFn (runUpdates CognitiveStateEngine.new calls)
        c.features c.vk_code).current_state_probs i
      ≤ ∑ j : Fin 3, (update c.phiFn (runUpdates CognitiveStateEngine.new calls)
        c.features c.vk_code).current_state_probs j :=
        Finset.single_le_sum (fun j _ => hg.1 j) (Finset.mem_univ i)
    _ = 1 := hg.2

/-- Witness for C2: the first update on a fresh engine keeps the sum at 1. -/
theorem C2_normalization_witness :
    (runUpdates CognitiveStateEngine.new []).is_paused = false ∧
    (0 : ℚ) < testCall.features.f1_flight_time_median ∧
    |(∑ i : Fin 3, (update testCall.phiFn (runUpdates CognitiveStateEngine.new [])
        testCall.features testCall.vk_code).current_state_probs i) - 1| ≤
      1 / 1000000000 :=
  ⟨rfl, by norm_num [testCall, testFeatures],
   (C2_normalization_invariant [] testCall rfl
      (by norm_num [testCall, testFeatures])).1⟩

/-- C10: with the fixed matrices, every belief vector with non-negative
components and positive sum yields a strictly positive normalizer for every
observation symbol; consequently the degenerate zero-sum branch is unreachable
from the initial prior [0.7, 0.2, 0.1]. -/
theorem C10_normalizer_positive :
    (∀ p : Fin 3 → ℚ, (∀ i, 0 ≤ p i) → 0 < ∑ i : Fin 3, p i →
      ∀ obs : Fin 11, 0 < sumProb p obs) ∧
    ∀ (calls : List UpdateCall) (obs : Fin 11),
      0 < sumProb ((runUpdates CognitiveStateEngine.new calls).current_state_probs)
        obs := by
  refine ⟨fun p hp hsum obs => sumProb_pos_of_nonneg hp hsum obs,
    fun calls obs => ?_⟩
  have hg : GoodProbs ((runUpdates CognitiveStateEngine.new calls).current_state_probs) :=
    runUpdates_GoodProbs initial_GoodProbs calls
  exact sumProb_pos_of_nonneg hg.1 (by rw [hg.2]; norm_num) obs

/-- Witness for C10 at the initial prior and observation symbol 0. -/
theorem C10_normalizer_witness :
    (∀ i, 0 ≤ initial_probs i) ∧ (0 < ∑ i : Fin 3, initial_probs i) ∧
    0 < sumProb initial_probs 0 :=
  ⟨initial_GoodProbs.1, by rw [initial_GoodProbs.2]; norm_num,
   C10_normalizer_positive.1 initial_probs initial_GoodProbs.1
     (by rw [initial_GoodProbs.2]; norm_num) 0⟩

/-- C9: for every finite sequence of updates whose raw stuck scores are all
strictly below 1, the EWMA started at 0 stays strictly below 1; a smoothed
score below 1 gives a score-based symbol of at most 9; and symbol 10 occurs
only via the streak override or an EWMA value of at least 1. -/
theorem C9_symbol_ten_only_at_extreme (calls : List UpdateCall)
    (h : ∀ c ∈ calls, calculate_s_stuck c.phiFn c.features < 1) :
    (runUpdates CognitiveStateEngine.new calls).s_stuck_ewma < 1 ∧
    (∀ s : ℚ, s < 1 → min (Int.toNat ⌊s * 10⌋) 10 ≤ 9) ∧
    (∀ (s : ℚ) (k : ℕ), (obsSymbol s k).val = 10 → 5 ≤ k ∨ 1 ≤ s) := by
  refine ⟨runUpdates_ewma_lt_one (by norm_num [CognitiveStateEngine.new]) h,
    fun s hs => ?_,
    fun s k hobs => ?_⟩
  · have hf : ⌊s * 10⌋ < (10 : ℤ) := Int.floor_lt.mpr (by push_cast; linarith)
    omega
  · by_cases h5 : 5 ≤ k
    · exact Or.inl h5
    · right
      unfold obsSymbol at hobs
      rw [if_neg h5] at hobs
      have h10 : (10 : ℤ) ≤ ⌊s * 10⌋ := by
        simp only [] at hobs
        omega
      have hq : ((10 : ℤ) : ℚ) ≤ s * 10 := Int.le_floor.mp h10
      push_cast at hq
      linarith

/-- Witness for C9: one call with raw score 0.15 keeps the EWMA below 1. -/
theorem C9_symbol_ten_witness :
    (∀ c ∈ [testCall], calculate_s_stuck c.phiFn c.features < 1) ∧
    (runUpdates CognitiveStateEngine.new [testCall]).s_stuck_ewma < 1 :=
  have hh : ∀ c ∈ [testCall], calculate_s_stuck c.phiFn c.features < 1 := by
    intro c hc
    rw [List.mem_singleton] at hc
    subst hc
    norm_num [testCall, calculate_s_stuck, zeroPhi, testFeatures]
  ⟨hh, (C9_symbol_ten_only_at_extreme [testCall] hh).1⟩

/-- C3: the observation symbol is `min(floor(s·10), 10)` for streaks below 5
and exactly 10 for streaks of 5 or more; in particular, after 5 consecutive
backspace events with no intervening other key the symbol is 10. -/
theorem C3_observation_mapping :
    (∀ (s : ℚ) (k : ℕ), 0 ≤ s → k < 5 →
      ((obsSymbol s k).val : ℤ) = min ⌊s * 10⌋ 10) ∧
    (∀ (s : ℚ) (k : ℕ), 5 ≤ k → (obsSymbol s k).val = 10) ∧
    (∀ (st : EngineState) (calls : List UpdateCall) (phiFn : ℚ → ℚ → ℚ)
        (f : Features),
      st.is_paused = false → calls.length = 4 →
      (∀ c ∈ calls, c.vk_code = some 8 ∧ 0 < c.features.f1_flight_time_median) →
      (updateObs phiFn (runUpdates st calls) f (some 8)).val = 10) := by
  refine ⟨fun s k hs hk => ?_, fun s k hk => ?_,
    fun st calls phiFn f hp hlen h => ?_⟩
  · unfold obsSymbol
    rw [if_neg (by omega)]
    show ((min (Int.toNat ⌊s * 10⌋) 10 : ℕ) : ℤ) = min ⌊s * 10⌋ 10
    have h0 : (0 : ℤ) ≤ ⌊s * 10⌋ := Int.floor_nonneg.mpr (by positivity)
    push_cast
    rw [Int.toNat_of_nonneg h0]
  · unfold obsSymbol
    rw [if_pos hk]
  · obtain ⟨hbs, -⟩ := backspace_run hp h
    have h5 : 5 ≤ streakNext (runUpdates st calls).backspace_streak (some 8) := by
      rw [show streakNext (runUpdates st calls).backspace_streak (some 8) =
          (runUpdates st calls).backspace_streak + 1 by simp [streakNext]]
      rw [hbs, hlen]
      omega
    unfold updateObs obsSymbol
    rw [if_pos h5]

/-- Witness for C3: base mapping at s = 0.3, k = 0, and the override after
four recorded backspace updates followed by a fifth backspace event. -/
theorem C3_observation_witness :
    (0 : ℚ) ≤ 0.3 ∧ (0 : ℕ) < 5 ∧
    ((obsSymbol 0.3 0).val : ℤ) = min ⌊(0.3 : ℚ) * 10⌋ 10 ∧
    CognitiveStateEngine.new.is_paused = false ∧ fourBackspaces.length = 4 ∧
    (∀ c ∈ fourBackspaces,
      c.vk_code = some 8 ∧ 0 < c.features.f1_flight_time_median) ∧
    (updateObs zeroPhi (runUpdates CognitiveStateEngine.new fourBackspaces)
      testFeatures (some 8)).val = 10 :=
  have hc : ∀ c ∈ fourBackspaces,
      c.vk_code = some 8 ∧ 0 < c.features.f1_flight_time_median := by
    intro c hcm
    simp only [fourBackspaces, List.mem_cons, List.mem_singleton,
      List.not_mem_nil, or_false] at hcm
    rcases hcm with h | h | h | h <;>
      (subst h; exact ⟨rfl, by norm_num [backspaceCall, testFeatures]⟩)
  ⟨by norm_num, by norm_num,
   C3_observation_mapping.1 0.3 0 (by norm_num) (by norm_num),
   rfl, rfl, hc,
   C3_observation_mapping.2.2 CognitiveStateEngine.new fourBackspaces zeroPhi
     testFeatures rfl rfl hc⟩

/-! ### C1: the degenerate-normalization fallback -/

lemma test_raw_score : calculate_s_stuck zeroPhi testFeatures = 0.15 := by
  norm_num [calculate_s_stuck, zeroPhi, testFeatures]

lemma degenerate_obs :
    updateObs zeroPhi degenerateState testFeatures none = ⟨0, by omega⟩ := by
  apply Fin.ext
  unfold updateObs
  rw [test_raw_score]
  show (obsSymbol (ewmaNext (0 : ℚ) 0.15) (streakNext 0 none)).val = 0
  rw [show ewmaNext (0 : ℚ) 0.15 = 0.045 by norm_num [ewmaNext]]
  rw [show streakNext 0 none = 0 from rfl]
  unfold obsSymbol
  rw [if_neg (by omega)]
  have hf : ⌊(0.045 : ℚ) * 10⌋ = 0 := by
    apply Int.floor_eq_zero_iff.mpr
    constructor <;> norm_num
  simp [hf]

lemma degenerate_sumProb : sumProb degeneratePrior ⟨0, by omega⟩ = 0 := by
  norm_num [sumProb, unnormalized, transSum, Fin.sum_univ_three, degeneratePrior,
    transitionsAt, emissionsAt, transitions, emissions,
    fin3_val_zero, fin3_val_one, fin3_val_two]

/-- C1 fails on the code: at the prior `degeneratePrior` (obtained with
observation symbol 0, vk none, EWMA 0) the unnormalized posterior sums to
exactly zero, yet `update` does not leave the stored belief vector equal to
the prior — `*current = new_probs` runs unconditionally (engine.rs line 255),
contradicting both the spec and the source's own line-253 comment, which
promise that the previous probabilities are retained in this case. (No NaN is
produced, since the division is guarded; only the retention part fails.) -/
theorem C1_degenerate_fallback_not_implemented :
    sumProb degenerateState.current_state_probs
      (updateObs zeroPhi degenerateState testFeatures none) = 0 ∧
    (update zeroPhi degenerateState testFeatures none).current_state_probs 0 ≠
      degenerateState.current_state_probs 0 := by
  constructor
  · rw [show degenerateState.current_state_probs = degeneratePrior from rfl,
      degenerate_obs]
    exact degenerate_sumProb
  · rw [update_probs_not_skipped rfl
      (by norm_num [testFeatures] : (0:ℚ) < testFeatures.f1_flight_time_median)
      zeroPhi none]
    rw [degenerate_obs]
    show forwardStep degeneratePrior ⟨0, by omega⟩ 0 ≠ degeneratePrior 0
    unfold forwardStep
    rw [degenerate_sumProb]
    rw [if_neg (by norm_num)]
    norm_num [unnormalized, transSum, Fin.sum_univ_three, degeneratePrior,
      transitionsAt, emissionsAt, transitions, emissions,
      fin3_val_zero, fin3_val_one, fin3_val_two]
